import Mathlib

/-!
# hipchat-janitor

A shallow embedding of `janitor.go`, whose only function is `main`:

* lines 26-46, flag validation: `validateFlags`;
* lines 48-54, the two `http.ListenAndServe` calls, and lines 56-67, client and ticker
  construction: inlined in `main`;
* lines 68-126, the polling loop: `pollLoop`, one iteration of the room loop being
  `sweepRoom` (lines 77-122) and the whole `for ... range rooms.Items` being `sweepRooms`.

The remote service, the clock and the listeners are the environment.  Their answers are
inputs of the model, and what the program does to them is recorded as a list of `Event`s.

Numbers: Go `int` and `time.Duration` values are integers, a `float64` is the rational it
denotes.  Every `float64` the program computes is zero or has magnitude between `2^(-47)` and
`2^63`, far inside the normal range of binary64, so rounding to a 53-bit significand
(`f64round`) is the whole of the arithmetic: no infinity, NaN or subnormal can occur.
-/

namespace Janitor

/-! ## binary64 arithmetic -/

/-- Round a rational to the nearest integer, a tie going to the even neighbour. -/
def roundEven (q : ℚ) : ℤ :=
  if q - ⌊q⌋ < 1 / 2 then ⌊q⌋
  else if 1 / 2 < q - ⌊q⌋ then ⌊q⌋ + 1
  else if ⌊q⌋ % 2 = 0 then ⌊q⌋ else ⌊q⌋ + 1

/-- Nearest binary64 value of a positive rational: with `2^e ≤ x < 2^(e+1)` the unit in
the last place is `2^(e-52)` and `x` is rounded to a multiple of it, ties to even. -/
def f64roundPos (x : ℚ) : ℚ :=
  roundEven (x / 2 ^ (Int.log 2 x - 52)) * 2 ^ (Int.log 2 x - 52)

/-- Nearest binary64 value of a rational (round to nearest, ties to even). -/
def f64round (x : ℚ) : ℚ :=
  if 0 < x then f64roundPos x else if x < 0 then - f64roundPos (-x) else 0

/-- Go conversion `float64(n)` of an integer. -/
def f64ofInt (n : Int) : ℚ := f64round n

/-- Go `a + b` on `float64`. -/
def f64add (a b : ℚ) : ℚ := f64round (a + b)

/-- Go `a / b` on `float64`. -/
def f64div (a b : ℚ) : ℚ := f64round (a / b)

/-- A non-negative value with a 53-bit significand: `m * 2^k` with `m < 2^53`. -/
def Rep53 (r : ℚ) : Prop := ∃ (m : ℕ) (k : ℤ), m < 2 ^ 53 ∧ r = m * 2 ^ k

/-! ## package `time` -/

/-!
A `time.Duration` is a signed 64-bit count of nanoseconds: an `Int`.  A `time.Time` is an
instant of the wall clock, an `Int` of nanoseconds from a fixed origin; `time.Parse` returns
instants without a monotonic reading, so `Sub` below works on the wall clock.
-/

/-- Go `time.Hour`. -/
def Hour : Int := 3600000000000

/-- Go `minDuration`. -/
def minDuration : Int := -(2 ^ 63)

/-- Go `maxDuration`. -/
def maxDuration : Int := 2 ^ 63 - 1

/-- Go `t.Sub(u)`: the difference `t - u`, or the extreme `Duration` on overflow. -/
def Time.Sub (t u : Int) : Int :=
  if minDuration ≤ t - u ∧ t - u ≤ maxDuration then t - u
  else if t < u then minDuration
  else maxDuration

/-- Go `d.Hours()`: `hour := d / Hour; nsec := d % Hour;
return float64(hour) + float64(nsec)/(60*60*1e9)`, with Go's truncated `/` and `%`. -/
def Duration.Hours (d : Int) : ℚ :=
  f64add (f64ofInt (d.tdiv Hour)) (f64div (f64ofInt (d.tmod Hour)) (60 * 60 * 1000000000))

/-- Go `int64(x)` of an integer: wrap-around to 64 bits. -/
def wrapInt64 (x : Int) : Int := (x + 2 ^ 63) % 2 ^ 64 - 2 ^ 63

/-! ## the `hipchat` client library: the types `main` touches -/

/-- Go `error` values, as the text `%v` prints. -/
abbrev GoError := String

/-- The part of `url.URL` that tells an absolute URL from a relative one. -/
structure URL where
  Scheme : String
  Host : String
  Path : String
  deriving DecidableEq, Repr

/-- Go `u.IsAbs()`. -/
def URL.IsAbs (u : URL) : Bool := u.Scheme != ""

/-- The struct `hipchat.User`, of which only `ID` is read. -/
structure User where
  ID : Int
  deriving DecidableEq, Repr

/-- The struct `hipchat.Room`, both an element of `rooms.Items` and the result of `Room.Get`;
the fields `main` never reads are left out. -/
structure Room where
  ID : Int
  Name : String
  Privacy : String
  IsGuestAccessible : Bool
  Topic : String
  Owner : User
  deriving DecidableEq, Repr

/-- The struct `hipchat.RoomStatistics`, of which only `LastActive` is read. -/
structure RoomStatistics where
  LastActive : String
  deriving DecidableEq, Repr

set_option linter.dupNamespace false in
/-- The struct `hipchat.ID`. -/
structure ID where
  ID : String
  deriving DecidableEq, Repr

/-- The struct `hipchat.UpdateRoomRequest`: all six of its fields. -/
structure UpdateRoomRequest where
  Name : String
  Topic : String
  IsGuestAccess : Bool
  IsArchived : Bool
  Privacy : String
  Owner : ID
  deriving DecidableEq, Repr

/-- Go `strconv.Itoa`. -/
def Itoa (n : Int) : String := toString n

/-! ## the environment and what the program does to it -/

/-- The package-level flag variables of lines 16-22, after `flag.Parse()`. -/
structure Flags where
  tokenFlag : String
  urlFlag : String
  intervalFlag : Int
  maxFlag : Int
  insecureFlag : Bool
  deriving DecidableEq, Repr

/-- What `main` does to the outside world, in order. -/
inductive Event
  /-- Call of `log.Fatal` or `log.Fatalf`: the line is printed and the process exits 1. -/
  | Fatal (msg : String)
  /-- Call of `log.Printf`. -/
  | Printf (msg : String)
  /-- Call of `http.ListenAndServe(addr, nil)`. -/
  | ListenAndServe (addr : String)
  /-- Client construction of lines 57-63. -/
  | NewClient (token : String) (baseURL : URL) (skipVerify : Bool)
  /-- Call of `client.Room.List`. -/
  | RoomList (includePrivate includeArchived : Bool)
  /-- Call of `client.Room.Get(id)`. -/
  | RoomGet (id : String)
  /-- Call of `client.Room.GetStatistics(id)`. -/
  | RoomGetStatistics (id : String)
  /-- Call of `client.Room.Update(id, req)`. -/
  | RoomUpdate (id : String) (req : UpdateRoomRequest)
  /-- Receive from `ticker.C`. -/
  | Tick
  deriving DecidableEq, Repr

/-- The answers the environment gives while one room of the listing is evaluated: the
results of `Room.Get`, `Room.GetStatistics` and `Room.Update`, and the reading of
`time.Now()` on line 107.  An answer is only consumed if the call is made. -/
structure RoomOutcome where
  get : Except GoError Room
  getStatistics : Except GoError RoomStatistics
  now : Int
  update : Except GoError Unit

/-- The answer of one `Room.List` call: an error, or the items, each with the answers
its evaluation will get. -/
abbrev ListOutcome := Except GoError (List (Room × RoomOutcome))

/-- How an iteration of the room loop ends: falling through to the next item, or `break`. -/
inductive Flow
  | next
  | brk
  deriving DecidableEq, Repr

/-- Where a run of `main` stands once the supplied environment answers are used up. -/
inductive Status
  /-- The process has exited with this code. -/
  | exited (code : Nat)
  /-- Blocked inside `http.ListenAndServe(addr, nil)`, which is serving. -/
  | serving (addr : String)
  /-- The call `time.NewTicker` panicked on a non-positive interval. -/
  | panicked
  /-- In the polling loop, about to issue the next `Room.List`. -/
  | polling
  deriving DecidableEq, Repr

/-- A run: the events so far and where the process stands. -/
structure Run where
  events : List Event
  status : Status
  deriving DecidableEq, Repr

/-! ## `main` -/

/-- Lines 28-46: the four flag checks and `url.Parse`, which is a parameter.  The result
is the fatal message, or the parsed URL. -/
def validateFlags (urlParse : String → Except GoError URL) (f : Flags) : Except String URL :=
  if f.tokenFlag = "" then
    .error "The 'token' flag is required for communications with HipChat."
  else if f.urlFlag = "" then
    .error "The 'url' flag must be set to a valid HipChat server URL."
  else if f.intervalFlag ≤ 0 then
    .error "The 'interval' flag must be set to a number greater than zero."
  else if f.maxFlag ≤ 0 then
    .error "The 'max' flag must be set to a number greater than zero."
  else
    match urlParse f.urlFlag with
    | .error err => .error ("Fatal: could not parse URL flag: " ++ err)
    | .ok hipchatURL => .ok hipchatURL

/-- Line 107: `time.Now().Sub(lastActiveTime).Hours()/24 >= float64(*maxFlag)`, as a
function of the duration `time.Now().Sub(lastActiveTime)`. -/
def idleTooLong (d : Int) (maxFlag : Int) : Bool :=
  decide (f64div (Duration.Hours d) 24 ≥ f64ofInt maxFlag)

/-- Lines 109-116: the request built from the room just fetched. -/
def archiveRequest (room : Room) : UpdateRoomRequest :=
  { Name := room.Name
    IsArchived := true
    IsGuestAccess := room.IsGuestAccessible
    Owner := { ID := Itoa room.Owner.ID }
    Privacy := room.Privacy
    Topic := room.Topic }

/-- Lines 77-122: the body of the room loop for one item.  `timeParse` stands for
`time.Parse(time.RFC3339, ·)`. -/
def sweepRoom (timeParse : String → Except GoError Int) (maxFlag : Int)
    (item : Room) (out : RoomOutcome) : List Event × Flow :=
  let idString := Itoa item.ID
  match out.get with
  | .error err =>
    ([.RoomGet idString,
      .Printf ("Error: Could not retrieve room '" ++ item.Name ++ "': " ++ err)], .brk)
  | .ok room =>
    if room.Privacy = "private" then
      match out.getStatistics with
      | .error err =>
        ([.RoomGet idString, .RoomGetStatistics idString,
          .Printf ("Error: Could not retrieve statistics for room '" ++ room.Name ++ "': "
            ++ err)], .brk)
      | .ok stats =>
        match timeParse stats.LastActive with
        | .error err =>
          ([.RoomGet idString, .RoomGetStatistics idString,
            .Printf ("Error: Could not parse LastActive time '" ++ stats.LastActive
              ++ "' for room '" ++ room.Name ++ "': " ++ err)], .brk)
        | .ok lastActiveTime =>
          if idleTooLong (Time.Sub out.now lastActiveTime) maxFlag then
            ([.RoomGet idString, .RoomGetStatistics idString,
              .Printf ("Archiving room '" ++ room.Name ++ "', not touched in >= "
                ++ toString maxFlag ++ " days."),
              .RoomUpdate idString (archiveRequest room)]
              ++ (match out.update with
                  | .error err =>
                    [.Printf ("Error: Could not archive room '" ++ idString ++ "': " ++ err)]
                  | .ok _ => []),
             .next)
          else
            ([.RoomGet idString, .RoomGetStatistics idString], .next)
    else
      ([.RoomGet idString], .next)

/-- Lines 77-123: the loop over `rooms.Items`, left at the first `break`. -/
def sweepRooms (timeParse : String → Except GoError Int) (maxFlag : Int) :
    List (Room × RoomOutcome) → List Event
  | [] => []
  | (item, out) :: rest =>
    match sweepRoom timeParse maxFlag item out with
    | (events, .brk) => events
    | (events, .next) => events ++ sweepRooms timeParse maxFlag rest

/-- Lines 68-126: the polling loop, run against the answers to its first `Room.List`
calls, one per iteration; the loop itself never ends. -/
def pollLoop (timeParse : String → Except GoError Int) (maxFlag : Int) :
    List ListOutcome → Run
  | [] => ⟨[], .polling⟩
  | .error err :: _ =>
    ⟨[.RoomList true false,
      .Fatal ("Fatal: Could not get rooms list from HipChat: " ++ err)], .exited 1⟩
  | .ok rooms :: rest =>
    let r := pollLoop timeParse maxFlag rest
    ⟨.RoomList true false :: sweepRooms timeParse maxFlag rooms ++ .Tick :: r.events,
      r.status⟩

/-- The function `main`.  `health` and `metrics` say how the two `http.ListenAndServe` calls
end: `none` when the listener serves, in which case the call never returns, or the error it
returns with (which `main` discards).  `lists` are the answers to the `Room.List` calls. -/
def main (urlParse : String → Except GoError URL) (timeParse : String → Except GoError Int)
    (f : Flags) (health metrics : Option GoError) (lists : List ListOutcome) : Run :=
  match validateFlags urlParse f with
  | .error msg => ⟨[.Fatal msg], .exited 1⟩
  | .ok hipchatURL =>
    match health with
    | none => ⟨[.ListenAndServe ":3000"], .serving ":3000"⟩
    | some _ =>
      match metrics with
      | none => ⟨[.ListenAndServe ":3000", .ListenAndServe ":3001"], .serving ":3001"⟩
      | some _ =>
        if wrapInt64 (f.intervalFlag * Hour) ≤ 0 then
          ⟨[.ListenAndServe ":3000", .ListenAndServe ":3001",
            .NewClient f.tokenFlag hipchatURL f.insecureFlag], .panicked⟩
        else
          let r := pollLoop timeParse f.maxFlag lists
          ⟨[.ListenAndServe ":3000", .ListenAndServe ":3001",
            .NewClient f.tokenFlag hipchatURL f.insecureFlag,
            .Printf ("HipChat Janitor Started. Archiving any rooms untouched for "
              ++ toString f.maxFlag ++ " days every " ++ toString f.intervalFlag
              ++ " hours.")] ++ r.events, r.status⟩

/-! ## the specification's words, and sample environments -/

/-- The retention rule in the words of the specification: true iff the privacy is private
and the elapsed time, floored to whole hours and divided by 24, is at least `maxDays`. -/
def shouldArchiveSpec (privacy : String) (elapsed : Int) (maxDays : Int) : Bool :=
  privacy == "private" && decide (((elapsed / Hour : Int) : ℚ) / 24 ≥ (maxDays : ℚ))

/-- The value of `time.Parse(time.RFC3339, ·)` on the one timestamp the examples use,
midnight UTC of 1 January 2020 as nanoseconds since the Unix epoch.  Any other string is
answered with an error; no example depends on that. -/
def sampleTimeParse (s : String) : Except GoError Int :=
  if s = "2020-01-01T00:00:00Z" then .ok 1577836800000000000
  else .error ("parsing time \"" ++ s ++ "\"")

/-- The value of `url.Parse` on the three strings the examples use: an absolute URL; a
host name without a scheme, which `url.Parse` accepts as a relative reference with that
path; and a string with a malformed percent escape, which it rejects.  Any other string is
answered with an error; no example depends on that. -/
def sampleUrlParse (s : String) : Except GoError URL :=
  if s = "https://hipchat.example.com" then
    .ok { Scheme := "https", Host := "hipchat.example.com", Path := "" }
  else if s = "hipchat.example.com" then
    .ok { Scheme := "", Host := "", Path := "hipchat.example.com" }
  else if s = "%zz" then
    .error "parse \"%zz\": invalid URL escape \"%zz\""
  else .error ("parse \"" ++ s ++ "\"")

/-- The spec's constraint on the `url` flag: it parses, to an absolute URL. -/
def validAbsoluteURL (urlParse : String → Except GoError URL) (s : String) : Prop :=
  ∃ u, urlParse s = .ok u ∧ u.IsAbs = true

/-- A valid configuration: the defaults of lines 19-21 with a token and an absolute URL. -/
def sampleFlags : Flags :=
  { tokenFlag := "secret"
    urlFlag := "https://hipchat.example.com"
    intervalFlag := 24
    maxFlag := 30
    insecureFlag := false }

/-- A private room as `Room.Get` returns it. -/
def samplePrivateRoom (id : Int) (name : String) : Room :=
  { ID := id, Name := name, Privacy := "private", IsGuestAccessible := false,
    Topic := "", Owner := { ID := 7 } }

/-- Answers for a private room last active on 1 January 2020 and evaluated `elapsed`
nanoseconds later, every call succeeding. -/
def sampleOutcome (id : Int) (name : String) (elapsed : Int) : RoomOutcome :=
  { get := .ok (samplePrivateRoom id name)
    getStatistics := .ok { LastActive := "2020-01-01T00:00:00Z" }
    now := 1577836800000000000 + elapsed
    update := .ok () }

/-- Whether an event is a call of `Room.Update`. -/
def Event.isUpdate : Event → Bool
  | .RoomUpdate _ _ => true
  | _ => false

/-- Whether an event is a log line written by `log.Printf`. -/
def Event.isPrintf : Event → Bool
  | .Printf _ => true
  | _ => false

/-! ## binary64 rounding: bounds by representable values -/

theorem roundEven_le {q : ℚ} {n : ℤ} (h : q ≤ n) : roundEven q ≤ n := by
  have hfq : (⌊q⌋ : ℚ) ≤ q := Int.floor_le q
  have hf : ⌊q⌋ ≤ n := by
    have : (⌊q⌋ : ℚ) ≤ n := le_trans hfq h
    exact_mod_cast this
  have key : 0 < q - ⌊q⌋ → ⌊q⌋ + 1 ≤ n := by
    intro hpos
    have h1 : (⌊q⌋ : ℚ) < n := by linarith
    have h2 : ⌊q⌋ < n := by exact_mod_cast h1
    omega
  unfold roundEven
  split_ifs with h1 h2 h3
  · exact hf
  · exact key (by linarith)
  · exact hf
  · exact key (by linarith)

theorem le_roundEven {q : ℚ} {n : ℤ} (h : (n : ℚ) ≤ q) : n ≤ roundEven q := by
  have hf : n ≤ ⌊q⌋ := Int.le_floor.mpr h
  unfold roundEven
  split_ifs <;> omega

theorem roundEven_eq_of_near {q : ℚ} (n : ℤ) (h1 : (n : ℚ) - 1 / 2 < q) (h2 : q < n + 1 / 2) :
    roundEven q = n := by
  have hfq : (⌊q⌋ : ℚ) ≤ q := Int.floor_le q
  have hfq2 : q < ⌊q⌋ + 1 := Int.lt_floor_add_one q
  unfold roundEven
  split_ifs with h3 h4 h5
  · have a : ((⌊q⌋ : ℤ) : ℚ) < n + 1 := by linarith
    have b : ((n : ℤ) : ℚ) < ⌊q⌋ + 1 := by linarith
    have a1 : ⌊q⌋ < n + 1 := by exact_mod_cast a
    have b1 : n < ⌊q⌋ + 1 := by exact_mod_cast b
    omega
  · have a : ((⌊q⌋ : ℤ) : ℚ) < n := by linarith
    have b : ((n : ℤ) : ℚ) < ⌊q⌋ + 2 := by linarith
    have a1 : ⌊q⌋ < n := by exact_mod_cast a
    have b1 : n < ⌊q⌋ + 2 := by exact_mod_cast b
    omega
  · have e : q - ⌊q⌋ = 1 / 2 := le_antisymm (not_lt.mp h4) (not_lt.mp h3)
    have a : ((⌊q⌋ : ℤ) : ℚ) < n := by linarith
    have b : ((n : ℤ) : ℚ) < ⌊q⌋ + 1 := by linarith
    have a1 : ⌊q⌋ < n := by exact_mod_cast a
    have b1 : n < ⌊q⌋ + 1 := by exact_mod_cast b
    omega
  · have e : q - ⌊q⌋ = 1 / 2 := le_antisymm (not_lt.mp h4) (not_lt.mp h3)
    have a : ((⌊q⌋ : ℤ) : ℚ) < n := by linarith
    have b : ((n : ℤ) : ℚ) < ⌊q⌋ + 1 := by linarith
    have a1 : ⌊q⌋ < n := by exact_mod_cast a
    have b1 : n < ⌊q⌋ + 1 := by exact_mod_cast b
    omega

theorem f64roundPos_nonneg {x : ℚ} (hx : 0 < x) : 0 ≤ f64roundPos x := by
  unfold f64roundPos
  have hu : (0 : ℚ) < 2 ^ (Int.log 2 x - 52) := by positivity
  have : (0 : ℤ) ≤ roundEven (x / 2 ^ (Int.log 2 x - 52)) := by
    apply le_roundEven
    push_cast
    positivity
  have h2 : (0 : ℚ) ≤ (roundEven (x / 2 ^ (Int.log 2 x - 52)) : ℚ) := by exact_mod_cast this
  positivity

theorem f64roundPos_le {x r : ℚ} (hx : 0 < x) (hr : Rep53 r) (h : x ≤ r) : f64roundPos x ≤ r := by
  obtain ⟨m, k, hm, rfl⟩ := hr
  unfold f64roundPos
  set e := Int.log 2 x with he
  have hu : (0 : ℚ) < 2 ^ (e - 52) := by positivity
  have hlow : (2 : ℚ) ^ e ≤ x := by
    have := Int.zpow_log_le_self (b := 2) (by norm_num) hx
    simpa using this
  by_cases hk : e - 52 ≤ k
  · -- the bound is a multiple of the unit in the last place
    obtain ⟨j, hj⟩ := Int.eq_ofNat_of_zero_le (sub_nonneg.mpr hk)
    have hk2 : k = (e - 52) + j := by omega
    have hR : (m : ℚ) * 2 ^ k = ((m * 2 ^ j : ℕ) : ℤ) * 2 ^ (e - 52) := by
      rw [hk2, zpow_add₀ (by norm_num), zpow_natCast]
      push_cast
      ring
    rw [hR] at h ⊢
    have : roundEven (x / 2 ^ (e - 52)) ≤ ((m * 2 ^ j : ℕ) : ℤ) := by
      apply roundEven_le
      rw [div_le_iff₀ hu]
      exact h
    have h2 : (roundEven (x / 2 ^ (e - 52)) : ℚ) ≤ (((m * 2 ^ j : ℕ) : ℤ) : ℚ) := by
      exact_mod_cast this
    exact mul_le_mul_of_nonneg_right h2 hu.le
  · -- impossible: x would exceed the bound
    exfalso
    push_neg at hk
    have h53 : k + 53 ≤ e := by omega
    have h1 : (m : ℚ) * 2 ^ k < 2 ^ (k + 53) := by
      rw [zpow_add₀ (by norm_num), mul_comm]
      have : (m : ℚ) < 2 ^ (53 : ℤ) := by
        have h0 : (m : ℚ) < ((2 ^ 53 : ℕ) : ℚ) := by exact_mod_cast hm
        norm_num at h0 ⊢
        exact h0
      exact mul_lt_mul_of_pos_left this (by positivity)
    have h2 : (2 : ℚ) ^ (k + 53) ≤ 2 ^ e := zpow_le_zpow_right₀ (by norm_num) h53
    linarith

theorem le_f64roundPos {x r : ℚ} (hx : 0 < x) (hr : Rep53 r) (h : r ≤ x) : r ≤ f64roundPos x := by
  obtain ⟨m, k, hm, rfl⟩ := hr
  unfold f64roundPos
  set e := Int.log 2 x with he
  have hu : (0 : ℚ) < 2 ^ (e - 52) := by positivity
  have hlow : (2 : ℚ) ^ e ≤ x := by
    have := Int.zpow_log_le_self (b := 2) (by norm_num) hx
    simpa using this
  by_cases hk : e - 52 ≤ k
  · obtain ⟨j, hj⟩ := Int.eq_ofNat_of_zero_le (sub_nonneg.mpr hk)
    have hk2 : k = (e - 52) + j := by omega
    have hR : (m : ℚ) * 2 ^ k = ((m * 2 ^ j : ℕ) : ℤ) * 2 ^ (e - 52) := by
      rw [hk2, zpow_add₀ (by norm_num), zpow_natCast]
      push_cast
      ring
    rw [hR] at h ⊢
    have : ((m * 2 ^ j : ℕ) : ℤ) ≤ roundEven (x / 2 ^ (e - 52)) := by
      apply le_roundEven
      rw [le_div_iff₀ hu]
      exact h
    have h2 : (((m * 2 ^ j : ℕ) : ℤ) : ℚ) ≤ (roundEven (x / 2 ^ (e - 52)) : ℚ) := by
      exact_mod_cast this
    exact mul_le_mul_of_nonneg_right h2 hu.le
  · -- the bound lies in a lower binade than x
    push_neg at hk
    have h53 : k + 53 ≤ e := by omega
    have h1 : (m : ℚ) * 2 ^ k < 2 ^ (k + 53) := by
      rw [zpow_add₀ (by norm_num), mul_comm]
      have : (m : ℚ) < 2 ^ (53 : ℤ) := by
        have h0 : (m : ℚ) < ((2 ^ 53 : ℕ) : ℚ) := by exact_mod_cast hm
        norm_num at h0 ⊢
        exact h0
      exact mul_lt_mul_of_pos_left this (by positivity)
    have h2 : (2 : ℚ) ^ (k + 53) ≤ 2 ^ e := zpow_le_zpow_right₀ (by norm_num) h53
    have h3 : ((2 ^ 52 : ℕ) : ℤ) ≤ roundEven (x / 2 ^ (e - 52)) := by
      apply le_roundEven
      rw [le_div_iff₀ hu]
      have : (((2 ^ 52 : ℕ) : ℤ) : ℚ) * 2 ^ (e - 52) = 2 ^ e := by
        rw [zpow_sub₀ (by norm_num)]
        norm_num
        ring
      rw [this]
      exact hlow
    have h4 : (((2 ^ 52 : ℕ) : ℤ) : ℚ) ≤ (roundEven (x / 2 ^ (e - 52)) : ℚ) := by
      exact_mod_cast h3
    have h5 : (((2 ^ 52 : ℕ) : ℤ) : ℚ) * 2 ^ (e - 52) = 2 ^ e := by
      rw [zpow_sub₀ (by norm_num)]
      norm_num
      ring
    have h6 := mul_le_mul_of_nonneg_right h4 hu.le
    rw [h5] at h6
    linarith

theorem Rep53_nonneg {r : ℚ} (hr : Rep53 r) : 0 ≤ r := by
  obtain ⟨m, k, _, rfl⟩ := hr
  positivity

theorem f64round_le {x r : ℚ} (hr : Rep53 r) (h : x ≤ r) : f64round x ≤ r := by
  have h0 := Rep53_nonneg hr
  unfold f64round
  split_ifs with h1 h2
  · exact f64roundPos_le h1 hr h
  · have := f64roundPos_nonneg (x := -x) (by linarith)
    linarith
  · exact h0

theorem le_f64round {x r : ℚ} (hr : Rep53 r) (h : r ≤ x) : r ≤ f64round x := by
  have h0 := Rep53_nonneg hr
  unfold f64round
  split_ifs with h1 h2
  · exact le_f64roundPos h1 hr h
  · linarith
  · linarith

theorem f64round_of_Rep53 {r : ℚ} (hr : Rep53 r) : f64round r = r :=
  le_antisymm (f64round_le hr le_rfl) (le_f64round hr le_rfl)

theorem Rep53_zero : Rep53 0 := ⟨0, 0, by norm_num, by norm_num⟩

theorem f64round_nonpos {x : ℚ} (h : x ≤ 0) : f64round x ≤ 0 := f64round_le Rep53_zero h

theorem f64round_nonneg {x : ℚ} (h : 0 ≤ x) : 0 ≤ f64round x := le_f64round Rep53_zero h

theorem Rep53_natCast {n : ℕ} (h : n < 2 ^ 53) : Rep53 (n : ℚ) := ⟨n, 0, h, by simp⟩

/-- n - 2^(-k) is representable when n * 2^k fits in 53 bits. -/
theorem Rep53_sub_pow {n k : ℕ} (hn : 0 < n) (h : n * 2 ^ k ≤ 2 ^ 53) :
    Rep53 ((n : ℚ) - 1 / 2 ^ k) := by
  refine ⟨n * 2 ^ k - 1, -(k : ℤ), ?_, ?_⟩
  · have : 0 < n * 2 ^ k := by positivity
    omega
  · have h1 : 1 ≤ n * 2 ^ k := Nat.one_le_iff_ne_zero.mpr (by positivity)
    rw [Nat.cast_sub h1, zpow_neg, zpow_natCast]
    push_cast
    field_simp

theorem Rep53_intCast {z : ℤ} (h0 : 0 ≤ z) (h : z < 2 ^ 53) : Rep53 (z : ℚ) := by
  lift z to ℕ using h0
  exact Rep53_natCast (by exact_mod_cast h)

theorem f64ofInt_of_lt {z : ℤ} (h0 : 0 ≤ z) (h : z < 2 ^ 53) : f64ofInt z = z :=
  f64round_of_Rep53 (Rep53_intCast h0 h)

theorem tdiv_tmod_of_nonneg {d : Int} (h : 0 ≤ d) :
    d.tdiv Hour = d / Hour ∧ d.tmod Hour = d % Hour :=
  ⟨Int.tdiv_eq_ediv h (by decide), Int.tmod_eq_emod h (by decide)⟩

theorem tdiv_tmod_of_nonpos {d : Int} (h : d ≤ 0) :
    d.tdiv Hour ≤ 0 ∧ d.tmod Hour ≤ 0 := by
  have h1 : d.tdiv Hour = -((-d) / Hour) := by
    have := Int.neg_tdiv (-d) Hour
    rw [neg_neg] at this
    rw [this, Int.tdiv_eq_ediv (by omega) (by decide)]
  have h2 := Int.tmod_def d Hour
  rw [h1] at h2
  rw [h1, h2]
  unfold Hour
  omega

theorem Hours_nonpos {d : Int} (h : d ≤ 0) : Duration.Hours d ≤ 0 := by
  obtain ⟨h1, h2⟩ := tdiv_tmod_of_nonpos h
  unfold Duration.Hours f64add f64div f64ofInt
  apply f64round_nonpos
  have a : f64round ((d.tdiv Hour : ℤ) : ℚ) ≤ 0 := f64round_nonpos (by exact_mod_cast h1)
  have b : f64round ((d.tmod Hour : ℤ) : ℚ) ≤ 0 := f64round_nonpos (by exact_mod_cast h2)
  have c : f64round (f64round ((d.tmod Hour : ℤ) : ℚ) / (60 * 60 * 1000000000)) ≤ 0 :=
    f64round_nonpos (div_nonpos_of_nonpos_of_nonneg b (by norm_num))
  linarith

/-- Upper bound on Hours for a non-negative duration from bounds on its two summands. -/
theorem Hours_le {d : Int} (h : 0 ≤ d) {β r : ℚ} (hH : d / Hour < 2 ^ 53) (hβ : Rep53 β)
    (hn : ((d % Hour : ℤ) : ℚ) / 3600000000000 ≤ β) (hr : Rep53 r)
    (hs : ((d / Hour : ℤ) : ℚ) + β ≤ r) : Duration.Hours d ≤ r := by
  obtain ⟨h1, h2⟩ := tdiv_tmod_of_nonneg h
  have hH0 : 0 ≤ d / Hour := Int.ediv_nonneg h (by decide)
  have hn0 : 0 ≤ d % Hour := Int.emod_nonneg d (by decide)
  have hn1 : d % Hour < 2 ^ 53 := lt_trans (Int.emod_lt_of_pos d (by decide)) (by decide)
  unfold Duration.Hours f64add f64div
  rw [h1, h2, f64ofInt_of_lt hH0 hH, f64ofInt_of_lt hn0 hn1]
  apply f64round_le hr
  have : f64round (((d % Hour : ℤ) : ℚ) / (60 * 60 * 1000000000)) ≤ β := by
    apply f64round_le hβ
    norm_num at hn ⊢
    exact hn
  linarith

/-- Lower bound on Hours for a non-negative duration. -/
theorem le_Hours {d : Int} (h : 0 ≤ d) {r : ℚ} (hH : d / Hour < 2 ^ 53) (hr : Rep53 r)
    (hs : r ≤ ((d / Hour : ℤ) : ℚ)) : r ≤ Duration.Hours d := by
  obtain ⟨h1, h2⟩ := tdiv_tmod_of_nonneg h
  have hH0 : 0 ≤ d / Hour := Int.ediv_nonneg h (by decide)
  have hn0 : 0 ≤ d % Hour := Int.emod_nonneg d (by decide)
  have hn1 : d % Hour < 2 ^ 53 := lt_trans (Int.emod_lt_of_pos d (by decide)) (by decide)
  unfold Duration.Hours f64add f64div
  rw [h1, h2, f64ofInt_of_lt hH0 hH, f64ofInt_of_lt hn0 hn1]
  apply le_f64round hr
  have : 0 ≤ f64round (((d % Hour : ℤ) : ℚ) / (60 * 60 * 1000000000)) := by
    apply f64round_nonneg
    have : (0 : ℚ) ≤ ((d % Hour : ℤ) : ℚ) := by exact_mod_cast hn0
    positivity
  linarith

theorem idleTooLong_iff (d : Int) (maxFlag : Int) :
    idleTooLong d maxFlag = true ↔ f64div (Duration.Hours d) 24 ≥ f64ofInt maxFlag := by
  simp [idleTooLong]

/-- At or beyond max days of idleness (as a Duration) the comparison on line 107 holds. -/
theorem idleTooLong_of_ge {d max : Int} (hmax : 0 < max) (hd : d < 2 ^ 63)
    (h : max * (24 * Hour) ≤ d) : idleTooLong d max := by
  have hd0 : 0 ≤ d := le_trans (by unfold Hour; omega) h
  have hH : 24 * max ≤ d / Hour := by unfold Hour at *; omega
  have hH2 : d / Hour < 2562048 := by unfold Hour at *; omega
  have r24 : Rep53 (((24 * max : ℤ)) : ℚ) := Rep53_intCast (by omega) (by omega)
  have rmax : Rep53 ((max : ℤ) : ℚ) := Rep53_intCast (by omega) (by omega)
  have h1 : (((24 * max : ℤ)) : ℚ) ≤ Duration.Hours d :=
    le_Hours hd0 (by omega) r24 (by exact_mod_cast hH)
  rw [idleTooLong_iff]
  unfold f64div
  rw [f64ofInt_of_lt (by omega) (by omega)]
  apply le_f64round rmax
  rw [le_div_iff₀ (by norm_num)]
  push_cast at h1
  linarith

theorem one_le_f64ofInt {max : Int} (hmax : 0 < max) : 1 ≤ f64ofInt max := by
  unfold f64ofInt
  have : Rep53 (1 : ℚ) := ⟨1, 0, by norm_num, by norm_num⟩
  apply le_f64round this
  exact_mod_cast hmax

theorem not_idleTooLong_of_neg {d max : Int} (hmax : 0 < max) (hd : d ≤ 0) :
    ¬ idleTooLong d max := by
  have h1 := Hours_nonpos hd
  have h2 := one_le_f64ofInt hmax
  rw [idleTooLong_iff]
  unfold f64div
  have h3 : f64round (Duration.Hours d / 24) ≤ 0 :=
    f64round_nonpos (div_nonpos_of_nonpos_of_nonneg h1 (by norm_num))
  intro h
  linarith

/-- Below the threshold by at least b nanoseconds, where one hour is at most 2^k * b
nanoseconds and max is small enough for 2^(-k) hours to be resolved near 24 * max,
the comparison on line 107 fails. -/
theorem not_idleTooLong_of_le (k : ℕ) (b : Int) {d max : Int} (hmax : 0 < max)
    (hbk : Hour ≤ 2 ^ k * b) (h24 : 24 * max * 2 ^ k ≤ 2 ^ 53)
    (hm5 : max * 2 ^ (k + 5) ≤ 2 ^ 53) (hd : d ≤ max * (24 * Hour) - b) :
    ¬ idleTooLong d max := by
  rcases le_or_lt d 0 with hneg | hpos
  · exact not_idleTooLong_of_neg hmax hneg
  have hd0 : 0 ≤ d := hpos.le
  have hb0 : 0 < b := by
    by_contra hb
    have : (2 : Int) ^ k * b ≤ 0 := mul_nonpos_of_nonneg_of_nonpos (by positivity) (by omega)
    unfold Hour at hbk
    omega
  lift max to ℕ using hmax.le
  have hmaxN : 0 < max := by exact_mod_cast hmax
  have h24N : (24 * max) * 2 ^ k ≤ 2 ^ 53 := by exact_mod_cast h24
  have hm5N : max * 2 ^ (k + 5) ≤ 2 ^ 53 := by exact_mod_cast hm5
  have hk1 : 1 * 2 ^ k ≤ 2 ^ 53 := by
    have : 1 * 2 ^ k ≤ (24 * max) * 2 ^ k := Nat.mul_le_mul_right _ (by omega)
    omega
  have h2k : (1 : ℕ) ≤ 2 ^ k := Nat.one_le_two_pow
  have h24lt : 24 * (max : ℤ) ≤ 2 ^ 53 := by
    have : (24 * max) * 1 ≤ (24 * max) * 2 ^ k := Nat.mul_le_mul_left _ h2k
    have h3 : 24 * max ≤ 2 ^ 53 := by omega
    exact_mod_cast h3
  have hHlt : d / Hour < 24 * (max : ℤ) := by unfold Hour at *; omega
  -- the threshold values used as representable bounds
  have rS : Rep53 (((24 * max : ℕ) : ℚ) - 1 / 2 ^ k) := Rep53_sub_pow (by omega) h24N
  have rT : Rep53 ((max : ℚ) - 1 / 2 ^ (k + 5)) := Rep53_sub_pow hmaxN hm5N
  have rB : Rep53 (((1 : ℕ) : ℚ) - 1 / 2 ^ k) := Rep53_sub_pow (by omega) hk1
  have r1 : Rep53 (((1 : ℕ) : ℚ)) := Rep53_natCast (by norm_num)
  have hpk : (0 : ℚ) < 2 ^ k := by positivity
  have hinv : (1 : ℚ) / 2 ^ k ≤ 1 := by
    rw [div_le_one hpk]
    exact_mod_cast h2k
  have hHours : Duration.Hours d ≤ ((24 * max : ℕ) : ℚ) - 1 / 2 ^ k := by
    rcases lt_or_le (d / Hour) (24 * (max : ℤ) - 1) with hlt | hge
    · -- at least one whole hour short
      refine Hours_le hd0 (by omega) r1 ?_ rS ?_
      · have h1 : d % Hour < Hour := Int.emod_lt_of_pos d (by decide)
        have h2 : ((d % Hour : ℤ) : ℚ) < ((Hour : ℤ) : ℚ) := by exact_mod_cast h1
        rw [div_le_iff₀ (by norm_num)]
        unfold Hour at h2 ⊢
        push_cast at h2 ⊢
        linarith
      · have h1 : d / Hour + 1 ≤ 24 * (max : ℤ) - 1 := by omega
        have h2 : ((d / Hour : ℤ) : ℚ) + 1 ≤ 24 * (max : ℚ) - 1 := by exact_mod_cast h1
        push_cast
        linarith
    · -- within the final hour
      have hHeq : d / Hour = 24 * (max : ℤ) - 1 := by omega
      refine Hours_le hd0 (by omega) rB ?_ rS ?_
      · have h1 : (2 : ℤ) ^ k * (d % Hour) ≤ 2 ^ k * Hour - Hour := by
          have e1 : d % Hour = d - Hour * (d / Hour) := by
            have := Int.emod_add_ediv d Hour
            omega
          have e2 : d % Hour ≤ Hour - b := by
            rw [e1, hHeq]
            unfold Hour at *
            omega
          calc (2 : ℤ) ^ k * (d % Hour) ≤ 2 ^ k * (Hour - b) :=
                mul_le_mul_of_nonneg_left e2 (by positivity)
            _ = 2 ^ k * Hour - 2 ^ k * b := by ring
            _ ≤ 2 ^ k * Hour - Hour := by omega
        have h2 : ((2 : ℚ)) ^ k * ((d % Hour : ℤ) : ℚ) ≤ 2 ^ k * 3600000000000 - 3600000000000 := by
          have := (Int.cast_le (R := ℚ)).mpr h1
          unfold Hour at this
          push_cast at this
          unfold Hour
          exact this
        rw [div_le_iff₀ (by norm_num)]
        have h3 : ((1 : ℕ) : ℚ) - 1 / 2 ^ k = (2 ^ k - 1) / 2 ^ k := by
          field_simp
        rw [h3, div_mul_eq_mul_div, le_div_iff₀ hpk]
        linarith
      · rw [hHeq]
        push_cast
        linarith
  rw [idleTooLong_iff]
  unfold f64div
  rw [f64ofInt_of_lt (by omega) (by
    have : (max : ℤ) < 24 * max := by omega
    omega)]
  have hq : Duration.Hours d / 24 ≤ (max : ℚ) - 1 / 2 ^ (k + 5) := by
    rw [div_le_iff₀ (by norm_num)]
    have h5 : (1 : ℚ) / 2 ^ (k + 5) * 24 ≤ 1 / 2 ^ k := by
      have e5 : (1 : ℚ) / 2 ^ (k + 5) = 1 / 2 ^ k * (1 / 32) := by
        rw [pow_add]
        field_simp
        norm_num
      have e6 : (0 : ℚ) < 1 / 2 ^ k := by positivity
      rw [e5]
      linarith
    push_cast at hHours
    linarith
  have hle := f64round_le rT hq
  have hpos5 : (0 : ℚ) < 1 / 2 ^ (k + 5) := by positivity
  intro hge
  have : ((max : ℤ) : ℚ) = (max : ℚ) := by norm_cast
  rw [this] at hge
  linarith

/-- No int64 duration reaches a threshold of 2^26 days or more. -/
theorem not_idleTooLong_of_big {d max : Int} (hd : d < 2 ^ 63) (hmax : 2 ^ 26 ≤ max) :
    ¬ idleTooLong d max := by
  rcases le_or_lt d 0 with hneg | hpos
  · exact not_idleTooLong_of_neg (by omega) hneg
  have hH2 : d / Hour < 2562048 := by unfold Hour at *; omega
  have r1 : Rep53 (((1 : ℕ) : ℚ)) := Rep53_natCast (by norm_num)
  have rS : Rep53 (((2562048 : ℕ) : ℚ)) := Rep53_natCast (by norm_num)
  have rT : Rep53 (((106752 : ℕ) : ℚ)) := Rep53_natCast (by norm_num)
  have rM : Rep53 (((2 ^ 26 : ℕ) : ℚ)) := Rep53_natCast (by norm_num)
  have hHours : Duration.Hours d ≤ ((2562048 : ℕ) : ℚ) := by
    refine Hours_le hpos.le (by omega) r1 ?_ rS ?_
    · have h1 : d % Hour < Hour := Int.emod_lt_of_pos d (by decide)
      have h2 : ((d % Hour : ℤ) : ℚ) < ((Hour : ℤ) : ℚ) := by exact_mod_cast h1
      rw [div_le_iff₀ (by norm_num)]
      unfold Hour at h2 ⊢
      push_cast at h2 ⊢
      linarith
    · have h1 : d / Hour + 1 ≤ 2562048 := by omega
      have h2 : ((d / Hour : ℤ) : ℚ) + 1 ≤ 2562048 := by exact_mod_cast h1
      push_cast
      linarith
  have hq : f64round (Duration.Hours d / 24) ≤ ((106752 : ℕ) : ℚ) := by
    apply f64round_le rT
    rw [div_le_iff₀ (by norm_num)]
    push_cast at hHours ⊢
    linarith
  have hm : ((2 ^ 26 : ℕ) : ℚ) ≤ f64ofInt max := by
    unfold f64ofInt
    apply le_f64round rM
    exact_mod_cast hmax
  rw [idleTooLong_iff]
  unfold f64div
  intro hge
  push_cast at hq hm
  linarith

/-- A duration at least one millisecond short of max days never passes line 107. -/
theorem not_idleTooLong_of_ms {d max : Int} (hmax : 0 < max) (hd : d < 2 ^ 63)
    (h : d ≤ max * (24 * Hour) - 1000000) : ¬ idleTooLong d max := by
  rcases le_or_lt (2 ^ 26) max with hbig | hsmall
  · exact not_idleTooLong_of_big hd hbig
  · exact not_idleTooLong_of_le 22 1000000 hmax (by unfold Hour; norm_num)
      (by norm_num at hsmall ⊢; omega) (by norm_num at hsmall ⊢; omega) h

/-- For thresholds up to 64 days the comparison is exact to the nanosecond. -/
theorem idleTooLong_iff_of_le_64 {d max : Int} (hmax : 0 < max) (h64 : max ≤ 64)
    (hd : d < 2 ^ 63) : idleTooLong d max ↔ max * (24 * Hour) ≤ d := by
  constructor
  · intro h
    by_contra hlt
    exact not_idleTooLong_of_le 42 1 hmax (by unfold Hour; norm_num)
      (by norm_num; omega) (by norm_num; omega) (by omega) h
  · exact idleTooLong_of_ge hmax hd

theorem f64round_eq_of_near {x : ℚ} (e n : ℤ) (hx : 0 < x) (h1 : (2 : ℚ) ^ e ≤ x)
    (h2 : x < 2 ^ (e + 1)) (h3 : (n : ℚ) - 1 / 2 < x / 2 ^ (e - 52))
    (h4 : x / 2 ^ (e - 52) < n + 1 / 2) : f64round x = n * 2 ^ (e - 52) := by
  have he : Int.log 2 x = e := by
    apply le_antisymm
    · have := (Int.lt_zpow_iff_log_lt (b := 2) (by norm_num) hx (x := e + 1)).mp
        (by simpa using h2)
      omega
    · exact (Int.zpow_le_iff_le_log (b := 2) (by norm_num) hx).mp (by simpa using h1)
  unfold f64round
  rw [if_pos hx]
  unfold f64roundPos
  rw [he, roundEven_eq_of_near n h3 h4]

theorem idleTooLong_200 : idleTooLong (200 * (24 * Hour) - 1) 200 := by
  have hd : (200 * (24 * Hour) - 1 : Int) = 17279999999999999 := by decide
  have hH : (17279999999999999 : Int).tdiv Hour = 4799 := by decide
  have hn : (17279999999999999 : Int).tmod Hour = 3599999999999 := by decide
  have f1 : f64round ((3599999999999 : ℚ) / (60 * 60 * 1000000000)) = 9007199254738490 * 2 ^ ((-1 : ℤ) - 52) := by
    have := f64round_eq_of_near (x := (3599999999999 : ℚ) / (60 * 60 * 1000000000)) (-1) 9007199254738490
      (by norm_num) (by norm_num) (by norm_num) (by norm_num) (by norm_num)
    exact_mod_cast this
  have f2 : f64round ((4799 : ℚ) + 9007199254738490 * 2 ^ ((-1 : ℤ) - 52)) = 4800 := by
    have := f64round_eq_of_near (x := (4799 : ℚ) + 9007199254738490 * 2 ^ ((-1 : ℤ) - 52)) 12 (4800 * 2 ^ 40)
      (by norm_num) (by norm_num) (by norm_num) (by norm_num) (by norm_num)
    rw [this]
    norm_num
  have f3 : f64round ((4800 : ℚ) / 24) = 200 := by
    have e : (4800 : ℚ) / 24 = ((200 : ℕ) : ℚ) := by norm_num
    rw [e, f64round_of_Rep53 (Rep53_natCast (by norm_num))]
    norm_num
  unfold idleTooLong Duration.Hours f64div f64add
  rw [hd, hH, hn, f64ofInt_of_lt (by norm_num) (by norm_num),
    f64ofInt_of_lt (by norm_num) (by norm_num), f64ofInt_of_lt (by norm_num) (by norm_num)]
  push_cast
  rw [f1, f2, f3]
  simp

/-! ## the sweep: helper lemmas -/

theorem Sub_bounds (t u : Int) : -(2 ^ 63) ≤ Time.Sub t u ∧ Time.Sub t u < 2 ^ 63 := by
  unfold Time.Sub minDuration maxDuration
  split_ifs with h1 h2 <;> omega

theorem sweepRoom_private (timeParse : String → Except GoError Int) (maxFlag : Int)
    (item : Room) (out : RoomOutcome) (room : Room) (stats : RoomStatistics)
    (lastActiveTime : Int) (hget : out.get = .ok room) (hpriv : room.Privacy = "private")
    (hstats : out.getStatistics = .ok stats)
    (hparse : timeParse stats.LastActive = .ok lastActiveTime) :
    ((sweepRoom timeParse maxFlag item out).1.any Event.isUpdate = true ↔
      idleTooLong (Time.Sub out.now lastActiveTime) maxFlag = true) := by
  unfold sweepRoom
  simp only [hget, hpriv, hstats, hparse, if_true]
  by_cases h : idleTooLong (Time.Sub out.now lastActiveTime) maxFlag = true
  · simp [h, Event.isUpdate]
  · simp [h, Event.isUpdate]

theorem shouldArchiveSpec_private (d maxDays : Int) :
    shouldArchiveSpec "private" d maxDays = true ↔ maxDays * (24 * Hour) ≤ d := by
  unfold shouldArchiveSpec
  simp only [beq_self_eq_true, Bool.true_and, decide_eq_true_eq, ge_iff_le]
  rw [le_div_iff₀ (by norm_num)]
  have e : (maxDays : ℚ) * 24 = ((maxDays * 24 : Int) : ℚ) := by push_cast; ring
  rw [e, Int.cast_le]
  unfold Hour
  omega

theorem mem_sweepRoom_update {timeParse : String → Except GoError Int} {maxFlag : Int}
    {item : Room} {out : RoomOutcome} {id : String} {req : UpdateRoomRequest}
    (h : Event.RoomUpdate id req ∈ (sweepRoom timeParse maxFlag item out).1) :
    ∃ room, out.get = .ok room ∧ room.Privacy = "private" ∧ id = Itoa item.ID ∧
      req = archiveRequest room := by
  unfold sweepRoom at h
  split at h
  · simp at h
  · rename_i room hget
    split_ifs at h with hpriv
    · split at h
      · simp at h
      · split at h
        · simp at h
        · split_ifs at h with hidle
          · refine ⟨room, hget, hpriv, ?_⟩
            split at h <;> simp at h <;> exact ⟨h.1, h.2⟩
          · simp at h
    · simp at h

theorem sweepRooms_cons (timeParse : String → Except GoError Int) (maxFlag : Int)
    (item : Room) (out : RoomOutcome) (rest : List (Room × RoomOutcome)) :
    sweepRooms timeParse maxFlag ((item, out) :: rest) =
      if (sweepRoom timeParse maxFlag item out).2 = .brk then
        (sweepRoom timeParse maxFlag item out).1
      else (sweepRoom timeParse maxFlag item out).1 ++ sweepRooms timeParse maxFlag rest := by
  rw [sweepRooms]
  rcases h : sweepRoom timeParse maxFlag item out with ⟨ev, fl⟩
  cases fl <;> simp

theorem mem_sweepRooms_update {timeParse : String → Except GoError Int} {maxFlag : Int}
    {rooms : List (Room × RoomOutcome)} {id : String} {req : UpdateRoomRequest}
    (h : Event.RoomUpdate id req ∈ sweepRooms timeParse maxFlag rooms) :
    ∃ item out room, (item, out) ∈ rooms ∧ out.get = .ok room ∧ room.Privacy = "private" ∧
      id = Itoa item.ID ∧ req = archiveRequest room := by
  induction rooms with
  | nil => simp [sweepRooms] at h
  | cons x rest ih =>
    obtain ⟨item, out⟩ := x
    rw [sweepRooms_cons] at h
    have hcase : Event.RoomUpdate id req ∈ (sweepRoom timeParse maxFlag item out).1 ∨
        Event.RoomUpdate id req ∈ sweepRooms timeParse maxFlag rest := by
      split_ifs at h
      · exact Or.inl h
      · exact List.mem_append.mp h
    rcases hcase with h1 | h2
    · obtain ⟨room, hg, hp, hi, hr⟩ := mem_sweepRoom_update h1
      exact ⟨item, out, room, List.mem_cons_self _ _, hg, hp, hi, hr⟩
    · obtain ⟨item2, out2, room, hm, hg, hp, hi, hr⟩ := ih h2
      exact ⟨item2, out2, room, List.mem_cons_of_mem _ hm, hg, hp, hi, hr⟩


/-! ## the retention decision (line 107) -/

/-- Claim C1 (amended): for a room fetched as private whose last-active stamp parses, and
every `max > 0`, the sweep issues the update call iff the binary64 comparison of line 107
holds for the duration `time.Now().Sub(lastActiveTime)`.  It holds whenever that duration
is at least `max` days (boundary inclusive), fails whenever the duration is at least one
millisecond short of `max` days, and for `max ≤ 64` it holds exactly when the duration
is at least `max` days. -/
theorem C1_archive_iff_idle (timeParse : String → Except GoError Int) (maxFlag : Int)
    (item : Room) (out : RoomOutcome) (room : Room) (stats : RoomStatistics)
    (lastActiveTime : Int) (hget : out.get = .ok room) (hpriv : room.Privacy = "private")
    (hstats : out.getStatistics = .ok stats)
    (hparse : timeParse stats.LastActive = .ok lastActiveTime) (hmax : 0 < maxFlag) :
    ((sweepRoom timeParse maxFlag item out).1.any Event.isUpdate = true ↔
      f64div (Duration.Hours (Time.Sub out.now lastActiveTime)) 24 ≥ f64ofInt maxFlag) ∧
    (maxFlag * (24 * Hour) ≤ Time.Sub out.now lastActiveTime →
      (sweepRoom timeParse maxFlag item out).1.any Event.isUpdate = true) ∧
    (Time.Sub out.now lastActiveTime ≤ maxFlag * (24 * Hour) - 1000000 →
      (sweepRoom timeParse maxFlag item out).1.any Event.isUpdate = false) ∧
    (maxFlag ≤ 64 →
      ((sweepRoom timeParse maxFlag item out).1.any Event.isUpdate = true ↔
        maxFlag * (24 * Hour) ≤ Time.Sub out.now lastActiveTime)) := by
  have key := sweepRoom_private timeParse maxFlag item out room stats lastActiveTime
    hget hpriv hstats hparse
  have hsub := (Sub_bounds out.now lastActiveTime).2
  refine ⟨?_, ?_, ?_, ?_⟩
  · rw [key, idleTooLong_iff]
  · intro h
    exact key.mpr (idleTooLong_of_ge hmax hsub h)
  · intro h
    have hn := not_idleTooLong_of_ms hmax hsub h
    rw [← key] at hn
    simpa using hn
  · intro h64
    rw [key]
    exact idleTooLong_iff_of_le_64 hmax h64 hsub

/-- Scenarios A and B of the specification, by C1: with `max = 30` a private room idle
for exactly 30 days is archived, one idle for 29 days and 23 hours is not. -/
theorem C1_scenarios_A_and_B :
    (sweepRoom sampleTimeParse 30 (samplePrivateRoom 1 "ops")
        (sampleOutcome 1 "ops" (30 * (24 * Hour)))).1.any Event.isUpdate = true ∧
    (sweepRoom sampleTimeParse 30 (samplePrivateRoom 1 "ops")
        (sampleOutcome 1 "ops" (29 * (24 * Hour) + 23 * Hour))).1.any Event.isUpdate = false :=
  ⟨(C1_archive_iff_idle sampleTimeParse 30 (samplePrivateRoom 1 "ops")
      (sampleOutcome 1 "ops" (30 * (24 * Hour))) (samplePrivateRoom 1 "ops")
      ⟨"2020-01-01T00:00:00Z"⟩ 1577836800000000000 rfl rfl rfl rfl (by decide)).2.1
      (by decide),
   (C1_archive_iff_idle sampleTimeParse 30 (samplePrivateRoom 1 "ops")
      (sampleOutcome 1 "ops" (29 * (24 * Hour) + 23 * Hour)) (samplePrivateRoom 1 "ops")
      ⟨"2020-01-01T00:00:00Z"⟩ 1577836800000000000 rfl rfl rfl rfl (by decide)).2.2.1
      (by decide)⟩

/-- Claim C1 as stated fails: with `max = 200`, a private room whose last activity lies
200 days less one nanosecond back is archived, although its elapsed time in hours divided
by 24 is below 200. -/
theorem C1_counterexample :
    ¬ ((sweepRoom sampleTimeParse 200 (samplePrivateRoom 1 "ops")
          (sampleOutcome 1 "ops" (200 * (24 * Hour) - 1))).1.any Event.isUpdate = true ↔
        (((Time.Sub (sampleOutcome 1 "ops" (200 * (24 * Hour) - 1)).now
            1577836800000000000 : Int) : ℚ) / 3600000000000) / 24 ≥ 200) := by
  have hsub : Time.Sub (sampleOutcome 1 "ops" (200 * (24 * Hour) - 1)).now
      1577836800000000000 = 200 * (24 * Hour) - 1 := by decide
  have key := sweepRoom_private sampleTimeParse 200 (samplePrivateRoom 1 "ops")
    (sampleOutcome 1 "ops" (200 * (24 * Hour) - 1)) (samplePrivateRoom 1 "ops")
    ⟨"2020-01-01T00:00:00Z"⟩ 1577836800000000000 rfl rfl rfl rfl
  rw [key, hsub]
  intro h
  have h2 := h.mp idleTooLong_200
  unfold Hour at h2
  norm_num at h2

/-- Claim C9 (amended): for a private room, a duration `d` below `2^63` nanoseconds and
`max > 0`, the comparison the code makes on line 107 agrees with the rule of the
specification (whole hours, divided by 24, at least `max`) whenever `max ≤ 64`, or `d` is
at least `max` days, or `d` is at least one millisecond short of `max` days. -/
theorem C9_code_agrees_with_spec_rule (d maxFlag : Int) (hmax : 0 < maxFlag)
    (hd : d < 2 ^ 63)
    (hband : maxFlag ≤ 64 ∨ maxFlag * (24 * Hour) ≤ d ∨
      d ≤ maxFlag * (24 * Hour) - 1000000) :
    idleTooLong d maxFlag = shouldArchiveSpec "private" d maxFlag := by
  rw [Bool.eq_iff_iff, shouldArchiveSpec_private]
  rcases hband with h64 | hge | hlt
  · exact idleTooLong_iff_of_le_64 hmax h64 hd
  · exact ⟨fun _ => hge, fun _ => idleTooLong_of_ge hmax hd hge⟩
  · constructor
    · intro h
      exact absurd h (not_idleTooLong_of_ms hmax hd hlt)
    · intro h
      omega

/-- The two rules agree at `max = 30` on a duration of exactly 30 days, by C9. -/
theorem C9_agreement_at_thirty_days :
    idleTooLong (30 * (24 * Hour)) 30 = shouldArchiveSpec "private" (30 * (24 * Hour)) 30 :=
  C9_code_agrees_with_spec_rule (30 * (24 * Hour)) 30 (by decide) (by decide)
    (Or.inl (by decide))

/-- Claim C9 as stated fails: at `max = 200` and a duration of 200 days less one nanosecond
the code decides to archive and the rule of the specification decides not to. -/
theorem C9_counterexample :
    idleTooLong (200 * (24 * Hour) - 1) 200 ≠
      shouldArchiveSpec "private" (200 * (24 * Hour) - 1) 200 := by
  rw [idleTooLong_200]
  intro h
  have h2 := (shouldArchiveSpec_private _ _).mp h.symm
  unfold Hour at h2
  omega


/-! ## the sweep (lines 77-123) -/

/-- Claim C2: in a sweep, whatever the listing and the answers of the remote calls, every
update call is made for a listed room whose fetched detail has privacy "private"; and the
evaluation of a room fetched with any other privacy consists of the detail call alone, so
neither statistics nor update is called for it, whatever its last-active time. -/
theorem C2_only_private_rooms_archived (timeParse : String → Except GoError Int)
    (maxFlag : Int) (rooms : List (Room × RoomOutcome)) :
    (∀ id req, Event.RoomUpdate id req ∈ sweepRooms timeParse maxFlag rooms →
      ∃ item out room, (item, out) ∈ rooms ∧ id = Itoa item.ID ∧ out.get = .ok room ∧
        room.Privacy = "private") ∧
    (∀ item out room, out.get = .ok room → room.Privacy ≠ "private" →
      sweepRoom timeParse maxFlag item out = ([.RoomGet (Itoa item.ID)], .next)) := by
  constructor
  · intro id req h
    obtain ⟨item, out, room, hm, hg, hp, hi, _⟩ := mem_sweepRooms_update h
    exact ⟨item, out, room, hm, hi, hg, hp⟩
  · intro item out room hget hpriv
    unfold sweepRoom
    simp [hget, hpriv]

/-- Scenario C of the specification, by C2: a public room idle for 1000 days is fetched
and nothing else is done for it. -/
theorem C2_public_room_scenario :
    sweepRoom sampleTimeParse 30 (samplePrivateRoom 3 "lobby")
      { sampleOutcome 3 "lobby" (1000 * (24 * Hour)) with
        get := .ok { samplePrivateRoom 3 "lobby" with Privacy := "public" } } =
      ([.RoomGet (Itoa 3)], .next) :=
  (C2_only_private_rooms_archived sampleTimeParse 30 []).2 (samplePrivateRoom 3 "lobby")
    { sampleOutcome 3 "lobby" (1000 * (24 * Hour)) with
      get := .ok { samplePrivateRoom 3 "lobby" with Privacy := "public" } }
    { samplePrivateRoom 3 "lobby" with Privacy := "public" } rfl (by decide)

/-- Claim C3 fails on the code: when the detail fetch of room 1 fails, the sweep over the
listing of room 1 and room 2 ends after logging that failure, and room 2, which a sweep
over room 2 alone archives, is never evaluated. -/
theorem C3_failure_ends_the_sweep :
    sweepRooms sampleTimeParse 30
        [(samplePrivateRoom 1 "ops",
          { sampleOutcome 1 "ops" 0 with get := .error "timeout" }),
         (samplePrivateRoom 2 "old", sampleOutcome 2 "old" (31 * (24 * Hour)))] =
      [.RoomGet (Itoa 1), .Printf "Error: Could not retrieve room 'ops': timeout"] ∧
    Event.RoomUpdate (Itoa 2) (archiveRequest (samplePrivateRoom 2 "old")) ∈
      sweepRooms sampleTimeParse 30
        [(samplePrivateRoom 2 "old", sampleOutcome 2 "old" (31 * (24 * Hour)))] := by
  have hidle : idleTooLong (Time.Sub (sampleOutcome 2 "old" (31 * (24 * Hour))).now
      1577836800000000000) 30 = true :=
    idleTooLong_of_ge (by decide) (Sub_bounds _ _).2 (by decide)
  constructor
  · rw [sweepRooms_cons]
    simp [sweepRoom, sampleOutcome, samplePrivateRoom]
  · rw [sweepRooms_cons]
    have h1 : sweepRoom sampleTimeParse 30 (samplePrivateRoom 2 "old")
        (sampleOutcome 2 "old" (31 * (24 * Hour))) =
        ([.RoomGet (Itoa 2), .RoomGetStatistics (Itoa 2),
          .Printf ("Archiving room '" ++ "old" ++ "', not touched in >= "
            ++ toString (30 : Int) ++ " days."),
          .RoomUpdate (Itoa 2) (archiveRequest (samplePrivateRoom 2 "old"))], .next) := by
      unfold sweepRoom
      have hp : sampleTimeParse "2020-01-01T00:00:00Z" = .ok 1577836800000000000 := rfl
      simp only [sampleOutcome, samplePrivateRoom, hp, if_true]
      simp only [sampleOutcome] at hidle
      simp [hidle]
    rw [h1]
    simp

theorem sweepRoom_updates (timeParse : String → Except GoError Int)
    (maxFlag : Int) (item : Room) (out : RoomOutcome) :
    (sweepRoom timeParse maxFlag item out).1.filter Event.isUpdate = [] ∨
    ∃ room, out.get = .ok room ∧
      (sweepRoom timeParse maxFlag item out).1.filter Event.isUpdate =
        [.RoomUpdate (Itoa item.ID) (archiveRequest room)] := by
  unfold sweepRoom
  split
  · left; simp [Event.isUpdate]
  · rename_i room hget
    split_ifs with hpriv
    · split
      · left; simp [Event.isUpdate]
      · split
        · left; simp [Event.isUpdate]
        · split_ifs with hidle
          · right
            refine ⟨room, hget, ?_⟩
            split <;> simp [Event.isUpdate]
          · left; simp [Event.isUpdate]
    · left; simp [Event.isUpdate]

/-- Claim C5: the update calls made while one listed room is evaluated are none, or exactly
one, addressed to the decimal string of the listed id and carrying the archived flag set
and the name, guest-access flag, owner id (as a decimal string), privacy and topic of the
detail record just fetched, the request having no other field; and every update call of
a sweep is such a call for one of the listed rooms. -/
theorem C5_update_request_echoes_detail (timeParse : String → Except GoError Int)
    (maxFlag : Int) (item : Room) (out : RoomOutcome) :
    ((sweepRoom timeParse maxFlag item out).1.filter Event.isUpdate = [] ∨
      ∃ room, out.get = .ok room ∧
        (sweepRoom timeParse maxFlag item out).1.filter Event.isUpdate =
          [.RoomUpdate (Itoa item.ID)
            { Name := room.Name
              Topic := room.Topic
              IsGuestAccess := room.IsGuestAccessible
              IsArchived := true
              Privacy := room.Privacy
              Owner := { ID := Itoa room.Owner.ID } }]) ∧
    (∀ (rooms : List (Room × RoomOutcome)) (id : String) (req : UpdateRoomRequest),
      Event.RoomUpdate id req ∈ sweepRooms timeParse maxFlag rooms →
      ∃ listed answers room, (listed, answers) ∈ rooms ∧ answers.get = .ok room ∧
        id = Itoa listed.ID ∧
        req = { Name := room.Name
                Topic := room.Topic
                IsGuestAccess := room.IsGuestAccessible
                IsArchived := true
                Privacy := room.Privacy
                Owner := { ID := Itoa room.Owner.ID } }) :=
  ⟨sweepRoom_updates timeParse maxFlag item out, fun _ _ _ h =>
    let ⟨listed, answers, room, hm, hg, _, hi, hr⟩ := mem_sweepRooms_update h
    ⟨listed, answers, room, hm, hg, hi, hr⟩⟩

/-- The outcome of the update call changes neither how the iteration ends nor any event
of it other than log lines. -/
theorem sweepRoom_update_outcome (timeParse : String → Except GoError Int) (maxFlag : Int)
    (item : Room) (out : RoomOutcome) (u1 u2 : Except GoError Unit) :
    (sweepRoom timeParse maxFlag item { out with update := u1 }).2 =
      (sweepRoom timeParse maxFlag item { out with update := u2 }).2 ∧
    (sweepRoom timeParse maxFlag item { out with update := u1 }).1.filter
        (fun e => !e.isPrintf) =
      (sweepRoom timeParse maxFlag item { out with update := u2 }).1.filter
        (fun e => !e.isPrintf) := by
  unfold sweepRoom
  simp only
  split
  · simp
  · split_ifs with hpriv
    · split
      · simp
      · split
        · simp
        · split_ifs with hidle
          · cases u1 <;> cases u2 <;> simp [Event.isPrintf]
          · simp
    · simp

theorem sweepRooms_append_filter (timeParse : String → Except GoError Int) (maxFlag : Int)
    (pre : List (Room × RoomOutcome)) (l1 l2 : List (Room × RoomOutcome))
    (h : (sweepRooms timeParse maxFlag l1).filter (fun e => !e.isPrintf) =
      (sweepRooms timeParse maxFlag l2).filter (fun e => !e.isPrintf)) :
    (sweepRooms timeParse maxFlag (pre ++ l1)).filter (fun e => !e.isPrintf) =
      (sweepRooms timeParse maxFlag (pre ++ l2)).filter (fun e => !e.isPrintf) := by
  induction pre with
  | nil => simpa using h
  | cons x rest ih =>
    obtain ⟨item, out⟩ := x
    rw [List.cons_append, List.cons_append, sweepRooms_cons, sweepRooms_cons]
    split_ifs
    · rfl
    · rw [List.filter_append, List.filter_append, ih]

theorem sweepRooms_no_Fatal (timeParse : String → Except GoError Int) (maxFlag : Int)
    (rooms : List (Room × RoomOutcome)) (msg : String) :
    Event.Fatal msg ∉ sweepRooms timeParse maxFlag rooms := by
  induction rooms with
  | nil => simp [sweepRooms]
  | cons x rest ih =>
    obtain ⟨item, out⟩ := x
    have h1 : Event.Fatal msg ∉ (sweepRoom timeParse maxFlag item out).1 := by
      unfold sweepRoom
      split
      · simp
      · split_ifs
        · split
          · simp
          · split
            · simp
            · split_ifs
              · split <;> simp
              · simp
        · simp
    rw [sweepRooms_cons]
    split_ifs
    · exact h1
    · simp only [List.mem_append, not_or]
      exact ⟨h1, ih⟩

theorem pollLoop_status_of_ok (timeParse : String → Except GoError Int) (maxFlag : Int)
    (lists : List (List (Room × RoomOutcome))) :
    (pollLoop timeParse maxFlag (lists.map Except.ok)).status = .polling := by
  induction lists with
  | nil => rfl
  | cons x rest ih => simpa [pollLoop] using ih

theorem sweepRoom_failed_update (timeParse : String → Except GoError Int) (maxFlag : Int)
    (item : Room) (out : RoomOutcome) (err : GoError)
    (hissued : (sweepRoom timeParse maxFlag item
      { out with update := .error err }).1.any Event.isUpdate = true) :
    sweepRoom timeParse maxFlag item { out with update := .error err } =
      ((sweepRoom timeParse maxFlag item { out with update := .ok () }).1 ++
        [.Printf ("Error: Could not archive room '" ++ Itoa item.ID ++ "': " ++ err)],
       .next) ∧
    (sweepRoom timeParse maxFlag item { out with update := .ok () }).2 = .next ∧
    ((sweepRoom timeParse maxFlag item { out with update := .error err }).1.filter
      Event.isUpdate).length = 1 := by
  obtain ⟨g, s, n, u⟩ := out
  unfold sweepRoom at hissued ⊢
  simp only at hissued ⊢
  cases g with
  | error e => simp [Event.isUpdate] at hissued
  | ok room =>
    simp only at hissued ⊢
    by_cases hpriv : room.Privacy = "private"
    · simp only [hpriv, if_true] at hissued ⊢
      cases s with
      | error e => simp [Event.isUpdate] at hissued
      | ok stats =>
        simp only at hissued ⊢
        cases hp : timeParse stats.LastActive with
        | error e => simp [hp, Event.isUpdate] at hissued
        | ok t =>
          simp only [hp] at hissued ⊢
          by_cases hidle : idleTooLong (Time.Sub n t) maxFlag = true
          · simp [hidle, Event.isUpdate]
          · simp [hidle, Event.isUpdate] at hissued
    · simp [hpriv, Event.isUpdate] at hissued

theorem sweepRooms_append_of_next (timeParse : String → Except GoError Int) (maxFlag : Int)
    (pre rest : List (Room × RoomOutcome))
    (hpre : ∀ x ∈ pre, (sweepRoom timeParse maxFlag x.1 x.2).2 = .next) :
    sweepRooms timeParse maxFlag (pre ++ rest) =
      sweepRooms timeParse maxFlag pre ++ sweepRooms timeParse maxFlag rest := by
  induction pre with
  | nil => simp [sweepRooms]
  | cons x more ih =>
    obtain ⟨item, out⟩ := x
    have h1 : (sweepRoom timeParse maxFlag item out).2 = .next :=
      hpre (item, out) (List.mem_cons_self _ _)
    have h2 := ih (fun y hy => hpre y (List.mem_cons_of_mem _ hy))
    rw [List.cons_append, sweepRooms_cons, sweepRooms_cons, h1, h2]
    simp

/-- Claim C6: when the update call for a listed room is made and fails, the evaluation of
that room is the evaluation with a succeeding update followed by the one log line
"Error: Could not archive room ...", it holds exactly one update call (no retry), and it
falls through to the next item as on success.  If the sweep reaches that room, the rooms
after it contribute exactly the events of a sweep over them alone, on failure as on
success; for any listing the two sweeps differ in log lines only.  Nothing in the sweep is
fatal: the loop goes on to wait for the tick and to the next list call, and stays in the
polling loop as long as the list calls succeed. -/
theorem C6_update_failure_only_logged (timeParse : String → Except GoError Int)
    (maxFlag : Int) (pre post : List (Room × RoomOutcome)) (item : Room)
    (out : RoomOutcome) (err : GoError)
    (hissued : (sweepRoom timeParse maxFlag item
      { out with update := .error err }).1.any Event.isUpdate = true) :
    sweepRoom timeParse maxFlag item { out with update := .error err } =
      ((sweepRoom timeParse maxFlag item { out with update := .ok () }).1 ++
        [.Printf ("Error: Could not archive room '" ++ Itoa item.ID ++ "': " ++ err)],
       .next) ∧
    (sweepRoom timeParse maxFlag item { out with update := .ok () }).2 = .next ∧
    ((sweepRoom timeParse maxFlag item { out with update := .error err }).1.filter
      Event.isUpdate).length = 1 ∧
    ((∀ x ∈ pre, (sweepRoom timeParse maxFlag x.1 x.2).2 = .next) →
      sweepRooms timeParse maxFlag
          (pre ++ (item, { out with update := .error err }) :: post) =
        sweepRooms timeParse maxFlag pre ++
          ((sweepRoom timeParse maxFlag item { out with update := .ok () }).1 ++
            [.Printf ("Error: Could not archive room '" ++ Itoa item.ID ++ "': " ++ err)])
          ++ sweepRooms timeParse maxFlag post ∧
      sweepRooms timeParse maxFlag
          (pre ++ (item, { out with update := .ok () }) :: post) =
        sweepRooms timeParse maxFlag pre ++
          (sweepRoom timeParse maxFlag item { out with update := .ok () }).1
          ++ sweepRooms timeParse maxFlag post) ∧
    (sweepRooms timeParse maxFlag
        (pre ++ (item, { out with update := .error err }) :: post)).filter
        (fun e => !e.isPrintf) =
      (sweepRooms timeParse maxFlag
        (pre ++ (item, { out with update := .ok () }) :: post)).filter
        (fun e => !e.isPrintf) ∧
    (∀ msg, Event.Fatal msg ∉ sweepRooms timeParse maxFlag
        (pre ++ (item, { out with update := .error err }) :: post)) ∧
    (∀ rest : List ListOutcome,
      pollLoop timeParse maxFlag
          (.ok (pre ++ (item, { out with update := .error err }) :: post) :: rest) =
        ⟨.RoomList true false :: sweepRooms timeParse maxFlag
            (pre ++ (item, { out with update := .error err }) :: post) ++
            .Tick :: (pollLoop timeParse maxFlag rest).events,
          (pollLoop timeParse maxFlag rest).status⟩) ∧
    (∀ lists : List (List (Room × RoomOutcome)),
      (pollLoop timeParse maxFlag (lists.map Except.ok)).status = .polling) := by
  have hroom := sweepRoom_update_outcome timeParse maxFlag item out (.error err) (.ok ())
  obtain ⟨hfail, hok, hone⟩ := sweepRoom_failed_update timeParse maxFlag item out err hissued
  refine ⟨hfail, hok, hone, ?_, ?_, ?_, ?_, ?_⟩
  · intro hpre
    constructor
    · rw [sweepRooms_append_of_next _ _ _ _ hpre, sweepRooms_cons, hfail]
      simp
    · rw [sweepRooms_append_of_next _ _ _ _ hpre, sweepRooms_cons, hok]
      simp
  · apply sweepRooms_append_filter
    rw [sweepRooms_cons, sweepRooms_cons, hroom.1]
    split_ifs
    · exact hroom.2
    · rw [List.filter_append, List.filter_append, hroom.2]
  · intro msg
    exact sweepRooms_no_Fatal _ _ _ _
  · intro rest
    rw [pollLoop]
  · intro lists
    exact pollLoop_status_of_ok _ _ _

/-- A failing update in a sweep of two stale private rooms, by C6: with `max = 30`, a first
room idle for 31 days whose update call fails with "500" and a second idle for 40 days, the
first update is made once, its failure is logged, and the second room is then fetched
and archived. -/
theorem C6_failed_update_scenario :
    sweepRoom sampleTimeParse 30 (samplePrivateRoom 1 "ops")
        { sampleOutcome 1 "ops" (31 * (24 * Hour)) with update := .error "500" } =
      ((sweepRoom sampleTimeParse 30 (samplePrivateRoom 1 "ops")
          { sampleOutcome 1 "ops" (31 * (24 * Hour)) with update := .ok () }).1 ++
        [.Printf ("Error: Could not archive room '" ++ Itoa 1 ++ "': " ++ "500")], .next) ∧
    ((sweepRoom sampleTimeParse 30 (samplePrivateRoom 1 "ops")
        { sampleOutcome 1 "ops" (31 * (24 * Hour)) with update := .error "500" }).1.filter
      Event.isUpdate).length = 1 ∧
    sweepRooms sampleTimeParse 30
        ([] ++ (samplePrivateRoom 1 "ops",
            { sampleOutcome 1 "ops" (31 * (24 * Hour)) with update := .error "500" }) ::
          [(samplePrivateRoom 2 "old", sampleOutcome 2 "old" (40 * (24 * Hour)))]) =
      sweepRooms sampleTimeParse 30 [] ++
        ((sweepRoom sampleTimeParse 30 (samplePrivateRoom 1 "ops")
            { sampleOutcome 1 "ops" (31 * (24 * Hour)) with update := .ok () }).1 ++
          [.Printf ("Error: Could not archive room '" ++ Itoa 1 ++ "': " ++ "500")])
        ++ sweepRooms sampleTimeParse 30
          [(samplePrivateRoom 2 "old", sampleOutcome 2 "old" (40 * (24 * Hour)))] :=
  have h := C6_update_failure_only_logged sampleTimeParse 30 []
    [(samplePrivateRoom 2 "old", sampleOutcome 2 "old" (40 * (24 * Hour)))]
    (samplePrivateRoom 1 "ops") (sampleOutcome 1 "ops" (31 * (24 * Hour))) "500"
    ((sweepRoom_private sampleTimeParse 30 (samplePrivateRoom 1 "ops")
      { sampleOutcome 1 "ops" (31 * (24 * Hour)) with update := .error "500" }
      (samplePrivateRoom 1 "ops") ⟨"2020-01-01T00:00:00Z"⟩ 1577836800000000000
      rfl rfl rfl rfl).mpr
      (idleTooLong_of_ge (by decide) (Sub_bounds _ _).2 (by decide)))
  ⟨h.1, h.2.2.1, (h.2.2.2.1 (fun _ hx => absurd hx (List.not_mem_nil _))).1⟩

/-! ## the polling loop (lines 68-126) and startup (lines 26-67) -/

theorem pollLoop_append_error (timeParse : String → Except GoError Int) (maxFlag : Int)
    (pre : List (List (Room × RoomOutcome))) (err : GoError) (post : List ListOutcome) :
    pollLoop timeParse maxFlag (pre.map Except.ok ++ Except.error err :: post) =
      ⟨(pollLoop timeParse maxFlag (pre.map Except.ok)).events ++
        [.RoomList true false,
         .Fatal ("Fatal: Could not get rooms list from HipChat: " ++ err)], .exited 1⟩ := by
  induction pre with
  | nil => simp [pollLoop]
  | cons x rest ih =>
    rw [List.map_cons, List.cons_append, pollLoop, pollLoop, ih]
    simp

/-- Claim C4: when a list-rooms call fails after any number of completed sweeps, the run
is the run of those sweeps followed by that list call and the fatal log line only, and
the process has exited with status 1: no detail, statistics or update call follows, and
the answers prepared for later sweeps are never asked for. -/
theorem C4_list_failure_is_fatal (timeParse : String → Except GoError Int) (maxFlag : Int)
    (pre : List (List (Room × RoomOutcome))) (err : GoError) (post : List ListOutcome) :
    pollLoop timeParse maxFlag (pre.map Except.ok ++ Except.error err :: post) =
      ⟨(pollLoop timeParse maxFlag (pre.map Except.ok)).events ++
        [.RoomList true false,
         .Fatal ("Fatal: Could not get rooms list from HipChat: " ++ err)], .exited 1⟩ :=
  pollLoop_append_error timeParse maxFlag pre err post

theorem validateFlags_error_of_invalid (urlParse : String → Except GoError URL) (f : Flags)
    (h : f.tokenFlag = "" ∨ f.urlFlag = "" ∨ f.intervalFlag ≤ 0 ∨ f.maxFlag ≤ 0 ∨
      ∃ err, urlParse f.urlFlag = .error err) :
    ∃ msg, validateFlags urlParse f = .error msg := by
  unfold validateFlags
  split_ifs with h1 h2 h3 h4
  · exact ⟨_, rfl⟩
  · exact ⟨_, rfl⟩
  · exact ⟨_, rfl⟩
  · exact ⟨_, rfl⟩
  · rcases h with h | h | h | h | ⟨err, h⟩
    · exact absurd h h1
    · exact absurd h h2
    · exact absurd h h3
    · exact absurd h h4
    · rw [h]
      exact ⟨_, rfl⟩

theorem validateFlags_ok (urlParse : String → Except GoError URL) (f : Flags) (u : URL)
    (ht : f.tokenFlag ≠ "") (hu : f.urlFlag ≠ "") (hp : urlParse f.urlFlag = .ok u)
    (hi : 0 < f.intervalFlag) (hm : 0 < f.maxFlag) : validateFlags urlParse f = .ok u := by
  unfold validateFlags
  rw [if_neg ht, if_neg hu, if_neg (not_le.mpr hi), if_neg (not_le.mpr hm), hp]

theorem main_of_validateFlags_error (urlParse : String → Except GoError URL)
    (timeParse : String → Except GoError Int) (f : Flags) (health metrics : Option GoError)
    (lists : List ListOutcome) (msg : String) (h : validateFlags urlParse f = .error msg) :
    main urlParse timeParse f health metrics lists = ⟨[.Fatal msg], .exited 1⟩ := by
  unfold main
  rw [h]

/-- Claim C7: if the token is empty, or the URL is empty, or the interval is at most 0, or
max is at most 0, the run of `main` is one fatal log line and exit status 1, so no listener
is started and no remote call made; and flags with a non-empty token, a non-empty URL that
`url.Parse` accepts, a positive interval and a positive max pass validation, `main`
going on to start the first listener. -/
theorem C7_flag_validation (urlParse : String → Except GoError URL)
    (timeParse : String → Except GoError Int) (f : Flags) (health metrics : Option GoError)
    (lists : List ListOutcome) :
    ((f.tokenFlag = "" ∨ f.urlFlag = "" ∨ f.intervalFlag ≤ 0 ∨ f.maxFlag ≤ 0) →
      ∃ msg, main urlParse timeParse f health metrics lists =
        ⟨[.Fatal msg], .exited 1⟩) ∧
    (∀ u, f.tokenFlag ≠ "" → f.urlFlag ≠ "" → urlParse f.urlFlag = .ok u →
      0 < f.intervalFlag → 0 < f.maxFlag →
      validateFlags urlParse f = .ok u ∧
      (main urlParse timeParse f health metrics lists).events.head? =
        some (.ListenAndServe ":3000")) := by
  constructor
  · intro h
    have h2 : f.tokenFlag = "" ∨ f.urlFlag = "" ∨ f.intervalFlag ≤ 0 ∨ f.maxFlag ≤ 0 ∨
        ∃ err, urlParse f.urlFlag = .error err := by
      rcases h with h | h | h | h
      · exact Or.inl h
      · exact Or.inr (Or.inl h)
      · exact Or.inr (Or.inr (Or.inl h))
      · exact Or.inr (Or.inr (Or.inr (Or.inl h)))
    obtain ⟨msg, hmsg⟩ := validateFlags_error_of_invalid urlParse f h2
    exact ⟨msg, main_of_validateFlags_error _ _ _ _ _ _ _ hmsg⟩
  · intro u ht hu hp hi hm
    have hv := validateFlags_ok urlParse f u ht hu hp hi hm
    refine ⟨hv, ?_⟩
    unfold main
    rw [hv]
    cases health <;> cases metrics <;> simp
    split_ifs <;> simp

/-- The configurations named in the specification, by C7: an empty token, an interval of
0 and a max of -5 each end startup fatally, and the sample configuration passes. -/
theorem C7_named_configurations :
    (∃ msg, main sampleUrlParse sampleTimeParse { sampleFlags with tokenFlag := "" }
      none none [] = ⟨[.Fatal msg], .exited 1⟩) ∧
    (∃ msg, main sampleUrlParse sampleTimeParse { sampleFlags with intervalFlag := 0 }
      none none [] = ⟨[.Fatal msg], .exited 1⟩) ∧
    (∃ msg, main sampleUrlParse sampleTimeParse { sampleFlags with maxFlag := -5 }
      none none [] = ⟨[.Fatal msg], .exited 1⟩) ∧
    validateFlags sampleUrlParse sampleFlags =
      .ok { Scheme := "https", Host := "hipchat.example.com", Path := "" } :=
  ⟨(C7_flag_validation sampleUrlParse sampleTimeParse { sampleFlags with tokenFlag := "" }
      none none []).1 (Or.inl rfl),
   (C7_flag_validation sampleUrlParse sampleTimeParse { sampleFlags with intervalFlag := 0 }
      none none []).1 (Or.inr (Or.inr (Or.inl (by decide)))),
   (C7_flag_validation sampleUrlParse sampleTimeParse { sampleFlags with maxFlag := -5 }
      none none []).1 (Or.inr (Or.inr (Or.inr (by decide)))),
   ((C7_flag_validation sampleUrlParse sampleTimeParse sampleFlags none none []).2
      { Scheme := "https", Host := "hipchat.example.com", Path := "" }
      (by decide) (by decide) rfl (by decide) (by decide)).1⟩

/-- Claim C8 fails on the code: with the sample configuration, which is valid, and a
health listener that serves, `main` stays inside the first `http.ListenAndServe` call: the
metrics listener is never started and no list-rooms call is ever made, whatever the
environment holds ready. -/
theorem C8_health_listener_blocks_startup (metrics : Option GoError)
    (lists : List ListOutcome) :
    main sampleUrlParse sampleTimeParse sampleFlags none metrics lists =
      ⟨[.ListenAndServe ":3000"], .serving ":3000"⟩ := by
  have hv : validateFlags sampleUrlParse sampleFlags =
      .ok { Scheme := "https", Host := "hipchat.example.com", Path := "" } :=
    validateFlags_ok _ _ _ (by decide) (by decide) rfl (by decide) (by decide)
  unfold main
  rw [hv]

/-- Claim C10 (amended): for every configuration whose url value is empty or is rejected by
`url.Parse`, the run of `main` is one fatal log line and exit status 1, so the client is
never constructed; and a non-empty url that `url.Parse` accepts, absolute or not, is not
rejected: with a non-empty token and positive interval and max, validation succeeds with
the parsed URL, nothing in the run of `main` is that fatal exit, and `main` goes on to
start the first listener. -/
theorem C10_unparseable_url_fatal (urlParse : String → Except GoError URL)
    (timeParse : String → Except GoError Int) (f : Flags) (health metrics : Option GoError)
    (lists : List ListOutcome) :
    ((f.urlFlag = "" ∨ ∃ err, urlParse f.urlFlag = .error err) →
      ∃ msg, main urlParse timeParse f health metrics lists =
        ⟨[.Fatal msg], .exited 1⟩) ∧
    (∀ u : URL, f.urlFlag ≠ "" → urlParse f.urlFlag = .ok u → f.tokenFlag ≠ "" →
      0 < f.intervalFlag → 0 < f.maxFlag →
      validateFlags urlParse f = .ok u ∧
      (main urlParse timeParse f health metrics lists).events.head? =
        some (.ListenAndServe ":3000") ∧
      (∀ msg, main urlParse timeParse f health metrics lists ≠
        ⟨[.Fatal msg], .exited 1⟩)) := by
  constructor
  · intro h
    have h2 : f.tokenFlag = "" ∨ f.urlFlag = "" ∨ f.intervalFlag ≤ 0 ∨ f.maxFlag ≤ 0 ∨
        ∃ err, urlParse f.urlFlag = .error err := by
      rcases h with h | h
      · exact Or.inr (Or.inl h)
      · exact Or.inr (Or.inr (Or.inr (Or.inr h)))
    obtain ⟨msg, hmsg⟩ := validateFlags_error_of_invalid urlParse f h2
    exact ⟨msg, main_of_validateFlags_error _ _ _ _ _ _ _ hmsg⟩
  · intro u hu hp ht hi hm
    have hv := validateFlags_ok urlParse f u ht hu hp hi hm
    have hhead : (main urlParse timeParse f health metrics lists).events.head? =
        some (.ListenAndServe ":3000") := by
      unfold main
      rw [hv]
      cases health <;> cases metrics <;> simp
      split_ifs <;> simp
    refine ⟨hv, hhead, ?_⟩
    intro msg hmain
    rw [hmain] at hhead
    simp at hhead

/-- The url values of the examples, by C10: an empty url and one with a malformed escape
end startup fatally; the absolute URL and the schemeless host name both pass validation,
the latter as a relative reference. -/
theorem C10_rejected_and_accepted_urls :
    (∃ msg, main sampleUrlParse sampleTimeParse { sampleFlags with urlFlag := "" }
      none none [] = ⟨[.Fatal msg], .exited 1⟩) ∧
    (∃ msg, main sampleUrlParse sampleTimeParse { sampleFlags with urlFlag := "%zz" }
      none none [] = ⟨[.Fatal msg], .exited 1⟩) ∧
    validateFlags sampleUrlParse sampleFlags =
      .ok { Scheme := "https", Host := "hipchat.example.com", Path := "" } ∧
    validateFlags sampleUrlParse { sampleFlags with urlFlag := "hipchat.example.com" } =
      .ok { Scheme := "", Host := "", Path := "hipchat.example.com" } :=
  ⟨(C10_unparseable_url_fatal sampleUrlParse sampleTimeParse
      { sampleFlags with urlFlag := "" } none none []).1 (Or.inl rfl),
   (C10_unparseable_url_fatal sampleUrlParse sampleTimeParse
      { sampleFlags with urlFlag := "%zz" } none none []).1 (Or.inr ⟨_, rfl⟩),
   ((C10_unparseable_url_fatal sampleUrlParse sampleTimeParse sampleFlags none none []).2
      { Scheme := "https", Host := "hipchat.example.com", Path := "" }
      (by decide) rfl (by decide) (by decide) (by decide)).1,
   ((C10_unparseable_url_fatal sampleUrlParse sampleTimeParse
      { sampleFlags with urlFlag := "hipchat.example.com" } none none []).2
      { Scheme := "", Host := "", Path := "hipchat.example.com" }
      (by decide) rfl (by decide) (by decide) (by decide)).1⟩

/-- Claim C10 as stated fails: the url value "hipchat.example.com" is not a valid absolute
URL, yet startup is not fatal; once both listener calls have returned the client is
constructed with it and the polling loop is entered. -/
theorem C10_counterexample :
    ¬ validAbsoluteURL sampleUrlParse "hipchat.example.com" ∧
    main sampleUrlParse sampleTimeParse { sampleFlags with urlFlag := "hipchat.example.com" }
        (some "listen tcp :3000: bind: address already in use")
        (some "listen tcp :3001: bind: address already in use") [] =
      ⟨[.ListenAndServe ":3000", .ListenAndServe ":3001",
        .NewClient "secret" { Scheme := "", Host := "", Path := "hipchat.example.com" } false,
        .Printf ("HipChat Janitor Started. Archiving any rooms untouched for "
          ++ toString (30 : Int) ++ " days every " ++ toString (24 : Int) ++ " hours.")],
       .polling⟩ := by
  constructor
  · rintro ⟨u, hu, habs⟩
    have h1 : sampleUrlParse "hipchat.example.com" =
        .ok { Scheme := "", Host := "", Path := "hipchat.example.com" } := rfl
    rw [h1] at hu
    cases hu
    revert habs
    decide
  · have hv : validateFlags sampleUrlParse
        { sampleFlags with urlFlag := "hipchat.example.com" } =
        .ok { Scheme := "", Host := "", Path := "hipchat.example.com" } :=
      validateFlags_ok _ _ _ (by decide) (by decide) rfl (by decide) (by decide)
    unfold main
    rw [hv]
    have hw : ¬ wrapInt64 (24 * Hour) ≤ 0 := by decide
    simp [sampleFlags, hw, pollLoop]

end Janitor
